import Mathlib

/-!
Verification of the CSV merge utility `merge_qualtrics_dashboard.py`
(survey/log join tool): a shallow embedding of its data model and
operations, with theorems about the merge engine, the survey-table
reader and the output writer.

Python dictionaries are embedded as association lists with unique-key
assignment semantics (`dictSet` replaces the entry in place when the key
is present, appends otherwise; `lookup?` finds the first entry).
Python's `str.strip()` is embedded as `pyStrip` (drop leading and
trailing whitespace characters), and `str.startswith` as
`strStartsWith` (character-list prefix test).
-/

namespace MergeQualtrics

/-- A row record: an ordered mapping from field name to raw string value,
embedding a Python `dict` built by insertion. -/
abbrev Record := List (String × String)

/-- First-match association lookup, embedding Python `d[k]` / `d.get(k)`. -/
def lookup? {α : Type} : List (String × α) → String → Option α
  | [], _ => none
  | (k', v) :: rest, k => if k' = k then some v else lookup? rest k

/-- The keys of an association list, in insertion order. -/
def keys {α : Type} (d : List (String × α)) : List String := d.map Prod.fst

/-- Python `d[k] = v`: replace the entry for `k` in place if present,
append a new entry otherwise. -/
def dictSet {α : Type} : List (String × α) → String → α → List (String × α)
  | [], k, v => [(k, v)]
  | (k', v') :: rest, k, v =>
      if k' = k then (k, v) :: rest else (k', v') :: dictSet rest k v

/-- Python `d.get(k, dflt)`. -/
def getD (d : Record) (k : String) (dflt : String) : String :=
  (lookup? d k).getD dflt

/-- Python `s.strip()`: remove leading and trailing whitespace characters. -/
def pyStrip (s : String) : String :=
  ⟨((s.data.dropWhile Char.isWhitespace).reverse.dropWhile Char.isWhitespace).reverse⟩

/-- Python `s.startswith(p)`: `p`'s characters are a prefix of `s`'s. -/
def strStartsWith (s p : String) : Bool := p.data.isPrefixOf s.data

/-- The log table's foreign-key field name (`qualtricsResponseId`). -/
def foreignKeyField : String := "qualtricsResponseId"

/-- The survey table's identifier column name (`ResponseId`). -/
def surveyIdColumn : String := "ResponseId"

/-- The namespacing prefix for promoted survey fields (`qualtrics_`). -/
def nsPrefix : String := "qualtrics_"

/-- The metadata field holding the match status (`_match_status`). -/
def matchStatusField : String := "_match_status"

/-- One SurveyResponse row dictionary, embedding the inner loop of
`read_qualtrics_csv` (lines 64-70): `for i, header in enumerate(headers):
response_dict[header] = row[i] if i < len(row) else ''`. -/
def buildResponseDict (headers row : List String) : Record :=
  headers.enum.foldl (fun d p => dictSet d p.2 (row.getD p.1 "")) []

/-- The row-skip policy of `read_qualtrics_csv` (lines 57-62): a data row
is retained unless it is empty, shorter than the identifier column's
position, or its identifier value is empty after stripping. -/
def retainedRow (idx : Nat) (row : List String) : Prop :=
  ¬(row = [] ∨ row.length ≤ idx) ∧ pyStrip (row.getD idx "") ≠ ""

instance (idx : Nat) (row : List String) : Decidable (retainedRow idx row) := by
  unfold retainedRow
  infer_instance

/-- One iteration of the data-row loop of `read_qualtrics_csv`
(lines 56-72). -/
def qualtricsRowStep (idx : Nat) (headers : List String)
    (acc : List (String × Record)) (row : List String) : List (String × Record) :=
  if row = [] ∨ row.length ≤ idx then acc
  else
    let response_id := pyStrip (row.getD idx "")
    if response_id = "" then acc
    else dictSet acc response_id (buildResponseDict headers row)

/-- `read_qualtrics_csv`, embedded on the already-tokenized rows: `headers`
is row 1 of the file and `rows` the data rows (rows 2-3, discarded
unconditionally by the code, are not part of the input here). `none`
models the `sys.exit(1)` when no `ResponseId` column exists. -/
def read_qualtrics_csv (headers : List String) (rows : List (List String)) :
    Option (List (String × Record)) :=
  match headers.indexOf? surveyIdColumn with
  | none => none
  | some response_id_idx =>
      some (rows.foldl (qualtricsRowStep response_id_idx headers) [])

/-- `read_dashboard_csv`: `csv.DictReader` turns each data row into a
record keyed by the single header row, in file order. -/
def read_dashboard_csv (headers : List String) (rows : List (List String)) :
    List Record :=
  rows.map (buildResponseDict headers)

/-- The inner loop of the matched branch of `merge_data` (lines 134-135):
add every survey field under the `qualtrics_`-prefixed key. -/
def addQualtricsFields (resp log : Record) : Record :=
  resp.foldl (fun d p => dictSet d (nsPrefix ++ p.1) p.2) log

/-- The MergedRecord built by one iteration of `merge_data`
(lines 115-146) for a single log record. -/
def mergeOne (qualtrics_data : List (String × Record)) (log : Record) : Record :=
  let response_id := pyStrip (getD log foreignKeyField "")
  if response_id = "" then dictSet log matchStatusField "no_qualtrics_id"
  else
    match lookup? qualtrics_data response_id with
    | some resp => dictSet (addQualtricsFields resp log) matchStatusField "matched"
    | none => dictSet log matchStatusField "qualtrics_id_not_found"

/-- The result quadruple of `merge_data`. -/
structure MergeResult where
  merged : List Record
  matched_count : Nat
  unmatched_count : Nat
  matched_response_ids : List String
deriving DecidableEq

/-- Python `set.add`, embedded on a duplicate-free list. -/
def setAdd (s : List String) (x : String) : List String :=
  if x ∈ s then s else s ++ [x]

/-- One iteration of the loop of `merge_data` (lines 115-146), updating
the accumulated output list, counters and matched-id set. -/
def mergeStep (qualtrics_data : List (String × Record))
    (acc : MergeResult) (log : Record) : MergeResult :=
  let response_id := pyStrip (getD log foreignKeyField "")
  if response_id = "" then
    { acc with
      merged := acc.merged ++ [dictSet log matchStatusField "no_qualtrics_id"],
      unmatched_count := acc.unmatched_count + 1 }
  else
    match lookup? qualtrics_data response_id with
    | some resp =>
        { acc with
          merged := acc.merged ++
            [dictSet (addQualtricsFields resp log) matchStatusField "matched"],
          matched_count := acc.matched_count + 1,
          matched_response_ids := setAdd acc.matched_response_ids response_id }
    | none =>
        { acc with
          merged := acc.merged ++
            [dictSet log matchStatusField "qualtrics_id_not_found"],
          unmatched_count := acc.unmatched_count + 1 }

/-- `merge_data` (lines 98-148). -/
def merge_data (qualtrics_data : List (String × Record))
    (dashboard_logs : List Record) : MergeResult :=
  dashboard_logs.foldl (mergeStep qualtrics_data) ⟨[], 0, 0, []⟩

/-- The fixed priority list of log-domain column names
(`standard_log_keys`, lines 169-171). -/
def standard_log_keys : List String :=
  ["qualtricsResponseId", "userId", "studyId", "studyName",
   "ipAddress", "action", "details", "timestamp", "url",
   "articleId", "articleTitle", "id"]

/-- The union of keys across all merged records (`all_keys`, lines
163-166); a Python `set`, embedded as a duplicate-free list in first-seen
order (every later use is order-independent, which is proved below). -/
def allKeys (merged_data : List Record) : List String :=
  (merged_data.foldl (fun acc r => acc ++ keys r) []).dedup

/-- The deterministic output column ordering (`ordered_keys`, lines
168-195): priority keys present in the union, then sorted `qualtrics_`
keys, then sorted remaining non-metadata keys, then sorted metadata
keys. -/
def orderedKeys (all_keys : List String) : List String :=
  let seen1 := standard_log_keys.filter (fun k => decide (k ∈ all_keys))
  let qualtrics_keys := List.insertionSort (· ≤ ·)
    (all_keys.filter (fun k => strStartsWith k nsPrefix && !(decide (k ∈ seen1))))
  let seen2 := seen1 ++ qualtrics_keys
  let other_keys := List.insertionSort (· ≤ ·)
    (all_keys.filter (fun k => !(decide (k ∈ seen2)) && !(strStartsWith k "_")))
  let metadata_keys := List.insertionSort (· ≤ ·)
    (all_keys.filter (fun k => strStartsWith k "_"))
  seen1 ++ qualtrics_keys ++ other_keys ++ metadata_keys

/-- The observable outcome of `write_merged_csv`: either the explicit
no-data signal (lines 159-161: message printed, no file produced) or the
written file's header and rows. -/
inductive WriteOutcome where
  | noData : WriteOutcome
  | file (header : List String) (rows : List (List String)) : WriteOutcome
deriving DecidableEq

/-- `write_merged_csv` (lines 151-200): no-op signal on an empty merge
result, otherwise the CSV with the deterministic header and one row per
record, a record missing a column contributing the empty string
(`csv.DictWriter` padding). -/
def write_merged_csv (merged_data : List Record) : WriteOutcome :=
  if merged_data = [] then WriteOutcome.noData
  else
    let ordered := orderedKeys (allKeys merged_data)
    WriteOutcome.file ordered
      (merged_data.map (fun r => ordered.map (fun k => getD r k "")))

/-- The three abstract MatchStatus tags of the data model. -/
inductive MatchStatus where
  | matched : MatchStatus
  | no_identifier : MatchStatus
  | identifier_not_found : MatchStatus
deriving DecidableEq

/-- The concrete string the code stores in the `_match_status` field for
each abstract tag (lines 121, 137, 144). -/
def MatchStatus.tag : MatchStatus → String
  | MatchStatus.matched => "matched"
  | MatchStatus.no_identifier => "no_qualtrics_id"
  | MatchStatus.identifier_not_found => "qualtrics_id_not_found"

/-- The output column ordering as the spec words it, in four stages:
the fixed priority list restricted to keys present in the union, in the
fixed order; then all namespaced keys sorted; then all remaining keys not
yet placed and not starting with the metadata marker, sorted; then all
metadata keys, sorted, last. Stated from the spec for comparison with
`orderedKeys` above, which is stated from the code. -/
def orderedKeysSpec (all_keys : List String) : List String :=
  let stage1 := standard_log_keys.filter (fun k => decide (k ∈ all_keys))
  let stage2 := List.insertionSort (· ≤ ·)
    (all_keys.filter (fun k => strStartsWith k nsPrefix))
  let stage3 := List.insertionSort (· ≤ ·)
    (all_keys.filter (fun k =>
      !(decide (k ∈ stage1)) && !(strStartsWith k nsPrefix) && !(strStartsWith k "_")))
  let stage4 := List.insertionSort (· ≤ ·)
    (all_keys.filter (fun k => strStartsWith k "_"))
  stage1 ++ stage2 ++ stage3 ++ stage4

/-- Selector for the last row so far that is retained and carries the
identifier `r` (used to characterize duplicate-identifier handling). -/
def pickLast (idx : Nat) (r : String) (acc : Option (List String))
    (row : List String) : Option (List String) :=
  if retainedRow idx row ∧ pyStrip (row.getD idx "") = r then some row else acc

/-- The last retained data row whose identifier is `r`, if any. -/
def lastRetainedWith (idx : Nat) (r : String) (rows : List (List String)) :
    Option (List String) :=
  rows.foldl (pickLast idx r) none

/-- A survey index for exercising the namespacing collision: one response
with a single field `Q1`. -/
def collisionIndex : List (String × Record) := [("R1", [("Q1", "new")])]

/-- A log record that already carries a field named `qualtrics_Q1`. -/
def collisionLog : Record :=
  [("qualtricsResponseId", "R1"), ("qualtrics_Q1", "old")]

section DictLemmas

variable {α : Type}

theorem lookup?_dictSet (d : List (String × α)) (k : String) (v : α) (k' : String) :
    lookup? (dictSet d k v) k' = if k' = k then some v else lookup? d k' := by
  induction d with
  | nil =>
      by_cases h : k' = k
      · subst h
        simp [dictSet, lookup?]
      · simp [dictSet, lookup?, h, Ne.symm h]
  | cons p rest ih =>
      obtain ⟨a, b⟩ := p
      by_cases hak : a = k
      · subst hak
        by_cases h : k' = a
        · subst h
          simp [dictSet, lookup?]
        · simp [dictSet, lookup?, h, Ne.symm h]
      · by_cases h : k' = a
        · subst h
          simp [dictSet, lookup?, hak, Ne.symm hak]
        · simp [dictSet, lookup?, hak, h, Ne.symm h, ih]

theorem mem_keys_dictSet (d : List (String × α)) (k : String) (v : α) (k' : String) :
    k' ∈ keys (dictSet d k v) ↔ k' ∈ keys d ∨ k' = k := by
  induction d with
  | nil => simp [dictSet, keys]
  | cons p rest ih =>
      obtain ⟨a, b⟩ := p
      by_cases hak : a = k
      · subst hak
        simp [dictSet, keys]
        tauto
      · simp only [dictSet, if_neg hak, keys, List.map_cons, List.mem_cons] at ih ⊢
        rw [ih]
        tauto

theorem lookup?_eq_none_iff (d : List (String × α)) (k : String) :
    lookup? d k = none ↔ k ∉ keys d := by
  induction d with
  | nil => simp [lookup?, keys]
  | cons p rest ih =>
      obtain ⟨a, b⟩ := p
      by_cases h : a = k
      · subst h
        simp [lookup?, keys]
      · simp [lookup?, keys, h, Ne.symm h, ih]

theorem lookup?_isSome_iff (d : List (String × α)) (k : String) :
    (lookup? d k).isSome ↔ k ∈ keys d := by
  rw [← Decidable.not_not (p := k ∈ keys d), ← lookup?_eq_none_iff]
  cases h : lookup? d k <;> simp [h]

end DictLemmas

section FoldLemmas

variable {α β : Type}

theorem lookup?_foldl_dictSet_not_mem (key : β → String) (val : β → α)
    (l : List β) (d : List (String × α)) (k : String) (hk : k ∉ l.map key) :
    lookup? (l.foldl (fun acc x => dictSet acc (key x) (val x)) d) k = lookup? d k := by
  induction l generalizing d with
  | nil => rfl
  | cons x rest ih =>
      simp only [List.map_cons, List.mem_cons, not_or] at hk
      simp only [List.foldl_cons]
      rw [ih _ hk.2, lookup?_dictSet, if_neg hk.1]

theorem lookup?_foldl_dictSet_mem (key : β → String) (val : β → α)
    (l : List β) (d : List (String × α)) (b : β) (hb : b ∈ l)
    (hnd : (l.map key).Nodup) :
    lookup? (l.foldl (fun acc x => dictSet acc (key x) (val x)) d) (key b) =
      some (val b) := by
  induction l generalizing d with
  | nil => cases hb
  | cons x rest ih =>
      simp only [List.map_cons, List.nodup_cons] at hnd
      rcases List.mem_cons.mp hb with hbx | hbr
      · subst hbx
        simp only [List.foldl_cons]
        rw [lookup?_foldl_dictSet_not_mem key val rest _ (key b) hnd.1,
          lookup?_dictSet, if_pos rfl]
      · exact ih _ hbr hnd.2

theorem mem_keys_foldl_dictSet (key : β → String) (val : β → α)
    (l : List β) (d : List (String × α)) (k : String) :
    k ∈ keys (l.foldl (fun acc x => dictSet acc (key x) (val x)) d) ↔
      k ∈ keys d ∨ k ∈ l.map key := by
  induction l generalizing d with
  | nil => simp
  | cons x rest ih =>
      simp only [List.foldl_cons, List.map_cons, List.mem_cons]
      rw [ih, mem_keys_dictSet]
      tauto

end FoldLemmas

section StringLemmas

theorem strStartsWith_iff (s p : String) :
    strStartsWith s p = true ↔ p.data <+: s.data := by
  rw [strStartsWith, List.isPrefixOf_iff_prefix]

theorem strStartsWith_append (p s : String) :
    strStartsWith (p ++ s) p = true := by
  rw [strStartsWith_iff, String.data_append]
  exact List.prefix_append _ _

theorem append_left_inj_str (p a b : String) (h : p ++ a = p ++ b) : a = b := by
  have hd : (p ++ a).data = (p ++ b).data := by rw [h]
  rw [String.data_append, String.data_append] at hd
  exact String.ext (List.append_cancel_left hd)

theorem prefixed_ne_of_startsWith_false (p s k : String)
    (h : strStartsWith k p = false) : p ++ s ≠ k := by
  intro hk
  rw [← hk, strStartsWith_append] at h
  cases h

end StringLemmas

section MergeLemmas

theorem mergeStep_merged (q : List (String × Record)) (acc : MergeResult)
    (log : Record) :
    (mergeStep q acc log).merged = acc.merged ++ [mergeOne q log] := by
  by_cases h : pyStrip (getD log foreignKeyField "") = ""
  · simp [mergeStep, mergeOne, h]
  · cases hl : lookup? q (pyStrip (getD log foreignKeyField "")) <;>
      simp [mergeStep, mergeOne, h, hl]

theorem merge_data_foldl_merged (q : List (String × Record))
    (logs : List Record) (acc : MergeResult) :
    (logs.foldl (mergeStep q) acc).merged = acc.merged ++ logs.map (mergeOne q) := by
  induction logs generalizing acc with
  | nil => simp
  | cons log rest ih =>
      simp [List.foldl_cons, ih, mergeStep_merged, List.append_assoc]

theorem mergeOne_status (q : List (String × Record)) (log : Record) :
    lookup? (mergeOne q log) matchStatusField =
      some (if pyStrip (getD log foreignKeyField "") = "" then "no_qualtrics_id"
        else if (lookup? q (pyStrip (getD log foreignKeyField ""))).isSome
        then "matched" else "qualtrics_id_not_found") := by
  by_cases h : pyStrip (getD log foreignKeyField "") = ""
  · simp [mergeOne, h, lookup?_dictSet]
  · cases hl : lookup? q (pyStrip (getD log foreignKeyField "")) <;>
      simp [mergeOne, h, hl, lookup?_dictSet]

theorem lookup?_addQualtricsFields_not_prefixed (resp log : Record) (k : String)
    (h : strStartsWith k nsPrefix = false) :
    lookup? (addQualtricsFields resp log) k = lookup? log k := by
  unfold addQualtricsFields
  apply lookup?_foldl_dictSet_not_mem
  intro hk
  obtain ⟨p, hp, hpk⟩ := List.mem_map.mp hk
  exact prefixed_ne_of_startsWith_false nsPrefix p.1 k h hpk

end MergeLemmas

/-- C1: the merge is count- and order-preserving — the output record list
is exactly the input log list mapped through the per-record merge, so
there is exactly one MergedRecord per LogRecord (none dropped, none
duplicated) and the output order equals the input order; in particular
the lengths agree. -/
theorem merge_count_order_preserving (q : List (String × Record))
    (logs : List Record) :
    (merge_data q logs).merged = logs.map (mergeOne q) ∧
    (merge_data q logs).merged.length = logs.length := by
  have h : (merge_data q logs).merged = logs.map (mergeOne q) := by
    unfold merge_data
    rw [merge_data_foldl_merged]
    rfl
  exact ⟨h, by rw [h, List.length_map]⟩

/-- C2: every MergedRecord carries exactly one of the three mutually
exclusive MatchStatus tags in its `_match_status` field (stored as the
strings `matched`, `no_qualtrics_id`, `qualtrics_id_not_found`), and the
tag is consistent with the trimmed foreign-key value: `no_identifier`
iff it is empty or absent, `matched` iff it is non-empty and a key of
the survey index, `identifier_not_found` iff it is non-empty and not a
key of the survey index. -/
theorem match_status_exactly_one (q : List (String × Record)) (log : Record) :
    ∃! t : MatchStatus,
      lookup? (mergeOne q log) matchStatusField = some t.tag ∧
      (t = MatchStatus.no_identifier ↔
        pyStrip (getD log foreignKeyField "") = "") ∧
      (t = MatchStatus.matched ↔
        pyStrip (getD log foreignKeyField "") ≠ "" ∧
        pyStrip (getD log foreignKeyField "") ∈ keys q) ∧
      (t = MatchStatus.identifier_not_found ↔
        pyStrip (getD log foreignKeyField "") ≠ "" ∧
        pyStrip (getD log foreignKeyField "") ∉ keys q) := by
  have hs := mergeOne_status q log
  by_cases h : pyStrip (getD log foreignKeyField "") = ""
  · rw [if_pos h] at hs
    refine ⟨MatchStatus.no_identifier, ⟨hs, by simp [h], by simp [h], by simp [h]⟩, ?_⟩
    rintro t ⟨ht, -⟩
    rw [hs] at ht
    cases t <;> simp_all [MatchStatus.tag]
  · rw [if_neg h] at hs
    have hmem := lookup?_isSome_iff q (pyStrip (getD log foreignKeyField ""))
    by_cases hin : (lookup? q (pyStrip (getD log foreignKeyField ""))).isSome
    · rw [if_pos hin] at hs
      refine ⟨MatchStatus.matched,
        ⟨hs, by simp [h], by simp [h, hmem.mp hin], by simp [hmem.mp hin]⟩, ?_⟩
      rintro t ⟨ht, -⟩
      rw [hs] at ht
      cases t <;> simp_all [MatchStatus.tag]
    · rw [if_neg hin] at hs
      have hnot : pyStrip (getD log foreignKeyField "") ∉ keys q := by
        rw [← hmem]
        exact hin
      refine ⟨MatchStatus.identifier_not_found,
        ⟨hs, by simp [h], by simp [hnot], by simp [h, hnot]⟩, ?_⟩
      rintro t ⟨ht, -⟩
      rw [hs] at ht
      cases t <;> simp_all [MatchStatus.tag]

/-- Auxiliary: the prefixed survey keys of a response with duplicate-free
field names are themselves duplicate-free. -/
theorem nodup_prefixed_keys (resp : Record) (hnd : (keys resp).Nodup) :
    (resp.map (fun p => nsPrefix ++ p.1)).Nodup := by
  have heq : resp.map (fun p => nsPrefix ++ p.1) =
      (keys resp).map (fun s => nsPrefix ++ s) := by
    simp [keys, List.map_map]
  rw [heq]
  exact hnd.map (fun a b hab => append_left_inj_str nsPrefix a b hab)

/-- C3: for a matched LogRecord (non-empty trimmed foreign key found in
the survey index), every field of the matched SurveyResponse appears in
the MergedRecord under the `qualtrics_`-prefixed key with the raw value
unchanged. -/
theorem matched_fields_promoted (q : List (String × Record)) (log resp : Record)
    (k v : String)
    (hne : pyStrip (getD log foreignKeyField "") ≠ "")
    (hfound : lookup? q (pyStrip (getD log foreignKeyField "")) = some resp)
    (hnd : (keys resp).Nodup) (hkv : (k, v) ∈ resp) :
    lookup? (mergeOne q log) (nsPrefix ++ k) = some v := by
  have hmerge : mergeOne q log =
      dictSet (addQualtricsFields resp log) matchStatusField "matched" := by
    simp [mergeOne, hne, hfound]
  rw [hmerge, lookup?_dictSet,
    if_neg (prefixed_ne_of_startsWith_false nsPrefix k matchStatusField (by decide))]
  unfold addQualtricsFields
  exact lookup?_foldl_dictSet_mem (fun p => nsPrefix ++ p.1) (fun p => p.2)
    resp log (k, v) hkv (nodup_prefixed_keys resp hnd)

/-- C3 witness: a concrete matched record with survey field `Q1 = yes`
promoted unchanged under `qualtrics_Q1`. -/
theorem matched_fields_promoted_witness :
    pyStrip (getD [(("qualtricsResponseId" : String), ("R1" : String))] foreignKeyField "") ≠ "" ∧
    lookup? [(("R1" : String), ([(("Q1" : String), ("yes" : String))] : Record))]
      (pyStrip (getD [(("qualtricsResponseId" : String), ("R1" : String))] foreignKeyField "")) =
      some [(("Q1" : String), ("yes" : String))] ∧
    lookup? (mergeOne [(("R1" : String), ([(("Q1" : String), ("yes" : String))] : Record))]
      [(("qualtricsResponseId" : String), ("R1" : String))]) (nsPrefix ++ "Q1") =
      some ("yes") :=
  ⟨by decide, by decide,
    matched_fields_promoted [(("R1" : String), ([(("Q1" : String), ("yes" : String))] : Record))]
      [(("qualtricsResponseId" : String), ("R1" : String))]
      [(("Q1" : String), ("yes" : String))] ("Q1") ("yes")
      (by decide) (by decide) (by decide) (by decide)⟩

/-- C4 counterexample: with a log record that already carries a field
named `qualtrics_Q1`, the matched merge overwrites that log-origin field
with the survey-origin value, so namespacing does not rule out every
collision with log-origin fields. -/
theorem namespacing_collision_cex :
    lookup? collisionLog (nsPrefix ++ "Q1") = some ("old") ∧
    lookup? (mergeOne collisionIndex collisionLog) (nsPrefix ++ "Q1") =
      some ("new") := by
  constructor
  · decide
  · decide

/-- C4 (amended): adding the `qualtrics_`-prefixed survey fields never
changes a field whose key does not start with the `qualtrics_` prefix;
collisions are ruled out for every log-origin field except one that
itself bears the reserved prefix. -/
theorem namespacing_no_collision (resp log : Record) (k : String)
    (h : strStartsWith k nsPrefix = false) :
    lookup? (addQualtricsFields resp log) k = lookup? log k :=
  lookup?_addQualtricsFields_not_prefixed resp log k h

/-- C4 witness: a concrete non-prefixed log field survives the addition
of the survey fields unchanged. -/
theorem namespacing_no_collision_witness :
    strStartsWith ("userId") nsPrefix = false ∧
    lookup? (addQualtricsFields [(("Q1" : String), ("yes" : String))]
        [(("userId" : String), ("u42" : String))]) ("userId") =
      lookup? [(("userId" : String), ("u42" : String))] ("userId") :=
  ⟨by decide, namespacing_no_collision _ _ _ (by decide)⟩

/-- C10: the merge preserves log-origin content — for every key that does
not start with `qualtrics_` and is not `_match_status`, the MergedRecord
looks up exactly what the LogRecord holds, in every branch (the embedding
is pure, each output record being built from a copy of the input). -/
theorem merge_preserves_log_fields (q : List (String × Record)) (log : Record)
    (k : String)
    (h1 : strStartsWith k nsPrefix = false) (h2 : k ≠ matchStatusField) :
    lookup? (mergeOne q log) k = lookup? log k := by
  by_cases h : pyStrip (getD log foreignKeyField "") = ""
  · simp [mergeOne, h, lookup?_dictSet, h2]
  · cases hl : lookup? q (pyStrip (getD log foreignKeyField "")) with
    | none => simp [mergeOne, h, hl, lookup?_dictSet, h2]
    | some resp =>
        have hmerge : mergeOne q log =
            dictSet (addQualtricsFields resp log) matchStatusField "matched" := by
          simp [mergeOne, h, hl]
        rw [hmerge, lookup?_dictSet, if_neg h2]
        exact lookup?_addQualtricsFields_not_prefixed resp log k h1

/-- C10 witness: the `userId` field of a concrete matched record is
preserved with its value. -/
theorem merge_preserves_log_fields_witness :
    strStartsWith ("userId") nsPrefix = false ∧
    ("userId" : String) ≠ matchStatusField ∧
    lookup? (mergeOne [(("R1" : String), ([(("Q1" : String), ("yes" : String))] : Record))]
        [(("qualtricsResponseId" : String), ("R1" : String)),
         (("userId" : String), ("u42" : String))]) ("userId") =
      lookup? [(("qualtricsResponseId" : String), ("R1" : String)),
         (("userId" : String), ("u42" : String))] ("userId") :=
  ⟨by decide, by decide, merge_preserves_log_fields _ _ _ (by decide) (by decide)⟩

/-- C9: on an empty merge result the write step is the explicit no-data
signal (no file produced), and on any non-empty merge result a file is
produced. -/
theorem write_empty_no_op :
    write_merged_csv [] = WriteOutcome.noData ∧
    ∀ merged_data : List Record, merged_data ≠ [] →
      ∃ h r, write_merged_csv merged_data = WriteOutcome.file h r := by
  refine ⟨rfl, ?_⟩
  intro m hm
  exact ⟨_, _, by rw [write_merged_csv, if_neg hm]⟩

/-- C9 witness: the empty case signals no data, and a concrete singleton
merge result produces a file. -/
theorem write_empty_no_op_witness :
    write_merged_csv [] = WriteOutcome.noData ∧
    ∃ h r, write_merged_csv [[(("userId" : String), ("u42" : String))]] =
      WriteOutcome.file h r :=
  ⟨write_empty_no_op.1, write_empty_no_op.2 _ (by decide)⟩

section ReaderLemmas

/-- Auxiliary: a row failing the retention test is a no-op of the
data-row loop. -/
theorem qualtricsRowStep_not_retained (idx : Nat) (headers : List String)
    (acc : List (String × Record)) (row : List String)
    (h : ¬ retainedRow idx row) :
    qualtricsRowStep idx headers acc row = acc := by
  unfold qualtricsRowStep
  by_cases h1 : row = [] ∨ row.length ≤ idx
  · rw [if_pos h1]
  · have h2 : pyStrip (row.getD idx "") = "" := by
      by_contra h2
      exact h ⟨h1, h2⟩
    rw [if_neg h1, if_pos h2]

/-- Auxiliary: a retained row updates the index at its identifier. -/
theorem qualtricsRowStep_retained (idx : Nat) (headers : List String)
    (acc : List (String × Record)) (row : List String)
    (h : retainedRow idx row) :
    qualtricsRowStep idx headers acc row =
      dictSet acc (pyStrip (row.getD idx "")) (buildResponseDict headers row) := by
  unfold retainedRow at h
  unfold qualtricsRowStep
  rw [if_neg h.1, if_neg h.2]

/-- Auxiliary: restarting the last-row selector from `o` only matters
when no later row is picked. -/
theorem foldl_pickLast_start (idx : Nat) (r : String) (rows : List (List String))
    (o : Option (List String)) :
    rows.foldl (pickLast idx r) o = (lastRetainedWith idx r rows).elim o some := by
  induction rows generalizing o with
  | nil => rfl
  | cons row rest ih =>
      rw [lastRetainedWith, List.foldl_cons, List.foldl_cons, ih, ih (pickLast idx r none row)]
      cases hrest : lastRetainedWith idx r rest with
      | some w => rfl
      | none =>
          unfold pickLast
          by_cases hc : retainedRow idx row ∧ pyStrip (row.getD idx "") = r
          · rw [if_pos hc, if_pos hc]
            rfl
          · rw [if_neg hc, if_neg hc]
            rfl

/-- Auxiliary: unfolding of the last-row selector on a cons cell. -/
theorem lastRetainedWith_cons (idx : Nat) (r : String) (row : List String)
    (rest : List (List String)) :
    lastRetainedWith idx r (row :: rest) =
      (lastRetainedWith idx r rest).elim (pickLast idx r none row) some :=
  foldl_pickLast_start idx r rest (pickLast idx r none row)

/-- Auxiliary: the survey index at identifier `r` is exactly the field
mapping of the last retained data row carrying `r`. -/
theorem lookup?_foldl_rowStep (idx : Nat) (headers : List String)
    (rows : List (List String)) (acc : List (String × Record)) (r : String) :
    lookup? (rows.foldl (qualtricsRowStep idx headers) acc) r =
      (lastRetainedWith idx r rows).elim (lookup? acc r)
        (fun w => some (buildResponseDict headers w)) := by
  induction rows generalizing acc with
  | nil => rfl
  | cons row rest ih =>
      rw [List.foldl_cons, ih, lastRetainedWith_cons]
      cases hrest : lastRetainedWith idx r rest with
      | some w => rfl
      | none =>
          simp only [Option.elim]
          by_cases hc : retainedRow idx row ∧ pyStrip (row.getD idx "") = r
          · have hpick : pickLast idx r none row = some row := by
              unfold pickLast
              rw [if_pos hc]
            rw [hpick]
            simp only [Option.elim]
            rw [qualtricsRowStep_retained idx headers acc row hc.1, hc.2,
              lookup?_dictSet, if_pos rfl]
          · have hpick : pickLast idx r none row = none := by
              unfold pickLast
              rw [if_neg hc]
            rw [hpick]
            simp only [Option.elim]
            by_cases hret : retainedRow idx row
            · have hr : pyStrip (row.getD idx "") ≠ r := fun hh => hc ⟨hret, hh⟩
              rw [qualtricsRowStep_retained idx headers acc row hret,
                lookup?_dictSet, if_neg (fun hh => hr (Eq.symm hh))]
            · rw [qualtricsRowStep_not_retained idx headers acc row hret]

/-- Auxiliary: dropped rows contribute nothing — folding over all rows
equals folding over the retained rows only. -/
theorem foldl_rowStep_filter (idx : Nat) (headers : List String)
    (rows : List (List String)) (acc : List (String × Record)) :
    rows.foldl (qualtricsRowStep idx headers) acc =
      (rows.filter (fun row => decide (retainedRow idx row))).foldl
        (qualtricsRowStep idx headers) acc := by
  induction rows generalizing acc with
  | nil => rfl
  | cons row rest ih =>
      by_cases hr : retainedRow idx row
      · simp only [List.foldl_cons, List.filter_cons, decide_eq_true hr,
          if_pos trivial]
        exact ih _
      · simp only [List.foldl_cons, List.filter_cons, decide_eq_false hr]
        rw [qualtricsRowStep_not_retained idx headers acc row hr]
        exact ih _

/-- Auxiliary: keys already present survive the rest of the fold. -/
theorem mem_keys_foldl_rowStep_mono (idx : Nat) (headers : List String)
    (rows : List (List String)) (acc : List (String × Record)) (k : String)
    (hk : k ∈ keys acc) :
    k ∈ keys (rows.foldl (qualtricsRowStep idx headers) acc) := by
  induction rows generalizing acc with
  | nil => exact hk
  | cons row rest ih =>
      rw [List.foldl_cons]
      apply ih
      by_cases hr : retainedRow idx row
      · rw [qualtricsRowStep_retained idx headers acc row hr]
        exact (mem_keys_dictSet _ _ _ _).mpr (Or.inl hk)
      · rw [qualtricsRowStep_not_retained idx headers acc row hr]
        exact hk

/-- Auxiliary: every retained row's identifier ends up as a key of the
resulting index. -/
theorem retained_contributes (idx : Nat) (headers : List String)
    (rows : List (List String)) (acc : List (String × Record))
    (row : List String) (hrow : row ∈ rows) (hret : retainedRow idx row) :
    pyStrip (row.getD idx "") ∈
      keys (rows.foldl (qualtricsRowStep idx headers) acc) := by
  induction rows generalizing acc with
  | nil => cases hrow
  | cons row0 rest ih =>
      rw [List.foldl_cons]
      rcases List.mem_cons.mp hrow with h0 | hr
      · subst h0
        apply mem_keys_foldl_rowStep_mono
        rw [qualtricsRowStep_retained idx headers acc row hret]
        exact (mem_keys_dictSet _ _ _ _).mpr (Or.inr rfl)
      · exact ih _ hr

end ReaderLemmas

/-- C6: duplicate identifiers are resolved last-write-wins with no error:
whenever the identifier column is found, the reader succeeds, and for
every identifier `r` the resulting index holds exactly the field mapping
built from the last retained data row carrying `r` — so when two retained
rows share an identifier, only the later row's values are reflected. -/
theorem survey_index_last_write_wins (headers : List String)
    (rows : List (List String)) (idx : Nat) (r : String)
    (hidx : headers.indexOf? surveyIdColumn = some idx) :
    ∃ q, read_qualtrics_csv headers rows = some q ∧
      lookup? q r = (lastRetainedWith idx r rows).elim none
        (fun w => some (buildResponseDict headers w)) := by
  refine ⟨rows.foldl (qualtricsRowStep idx headers) [], ?_, ?_⟩
  · rw [read_qualtrics_csv, hidx]
  · rw [lookup?_foldl_rowStep]
    rfl

/-- C6 witness: two retained rows with identifier `R1` and different `Q1`
values — the index reflects only the later row. -/
theorem survey_index_last_write_wins_witness :
    (["ResponseId", "Q1"] : List String).indexOf? surveyIdColumn = some 0 ∧
    ∃ q, read_qualtrics_csv ["ResponseId", "Q1"] [["R1", "yes"], ["R1", "no"]] =
        some q ∧
      lookup? q ("R1") =
        (lastRetainedWith 0 ("R1") [["R1", "yes"], ["R1", "no"]]).elim none
          (fun w => some (buildResponseDict ["ResponseId", "Q1"] w)) :=
  ⟨by decide,
    survey_index_last_write_wins ["ResponseId", "Q1"] [["R1", "yes"], ["R1", "no"]]
      0 ("R1") (by decide)⟩

/-- C7: each retained row's field mapping has exactly the header row's
column names as keys, and (for a duplicate-free header) the column at
position `i` maps to the row's value at `i` when the row is long enough,
and to the empty string when the row is shorter (absent trailing columns
are present, not omitted). -/
theorem response_dict_fields (headers row : List String) :
    (∀ k, k ∈ keys (buildResponseDict headers row) ↔ k ∈ headers) ∧
    (headers.Nodup → ∀ i (h : i < headers.length),
      lookup? (buildResponseDict headers row) (headers.get ⟨i, h⟩) =
        some (row.getD i "")) := by
  constructor
  · intro k
    have hm := mem_keys_foldl_dictSet (fun p : Nat × String => p.2)
      (fun p : Nat × String => row.getD p.1 "") headers.enum [] k
    simp only [keys, List.map_nil, List.not_mem_nil, false_or,
      List.enum_map_snd] at hm
    exact hm
  · intro hnd i h
    have hb : ((i, headers.get ⟨i, h⟩) : Nat × String) ∈ headers.enum := by
      rw [List.mem_enum_iff_getElem?]
      exact List.getElem?_eq_getElem h
    have hndm : (headers.enum.map (fun p : Nat × String => p.2)).Nodup := by
      have he : headers.enum.map (fun p : Nat × String => p.2) = headers :=
        List.enum_map_snd headers
      rw [he]
      exact hnd
    exact lookup?_foldl_dictSet_mem (fun p : Nat × String => p.2)
      (fun p : Nat × String => row.getD p.1 "")
      headers.enum [] (i, headers.get ⟨i, h⟩) hb hndm

/-- C7 witness: header `ResponseId, Q1` with the short row `[R1]` — keys
are exactly the header names, position 0 maps to `R1` and the absent
trailing column 1 maps to the empty string. -/
theorem response_dict_fields_witness :
    (("Q1" : String) ∈ keys (buildResponseDict ["ResponseId", "Q1"] [["R1"]].head!) ↔
      ("Q1" : String) ∈ (["ResponseId", "Q1"] : List String)) ∧
    (["ResponseId", "Q1"] : List String).Nodup ∧
    lookup? (buildResponseDict ["ResponseId", "Q1"] [["R1"]].head!)
        ((["ResponseId", "Q1"] : List String).get ⟨1, by decide⟩) =
      some ((([("R1" : String)]) : List String).getD 1 "") :=
  ⟨(response_dict_fields ["ResponseId", "Q1"] [["R1"]].head!).1 ("Q1"), by decide,
    (response_dict_fields ["ResponseId", "Q1"] [["R1"]].head!).2 (by decide) 1
      (by decide)⟩

/-- C8: the reader silently drops exactly the rows failing the retention
test (empty or shorter than the identifier position, or with an
identifier that is empty after trimming): whenever the identifier column
is found the reader succeeds with no error, the resulting index is the
fold over the retained rows only, and every retained row contributes its
identifier as a key of the index. -/
theorem reader_silent_drop (headers : List String) (rows : List (List String))
    (idx : Nat) (hidx : headers.indexOf? surveyIdColumn = some idx) :
    ∃ q, read_qualtrics_csv headers rows = some q ∧
      q = (rows.filter (fun row => decide (retainedRow idx row))).foldl
        (qualtricsRowStep idx headers) [] ∧
      ∀ row ∈ rows, retainedRow idx row →
        pyStrip (row.getD idx "") ∈ keys q := by
  refine ⟨rows.foldl (qualtricsRowStep idx headers) [], ?_, ?_, ?_⟩
  · rw [read_qualtrics_csv, hidx]
  · exact foldl_rowStep_filter idx headers rows []
  · intro row hrow hret
    exact retained_contributes idx headers rows [] row hrow hret

/-- C8 witness: with identifier column 0, a malformed empty row and a row
with a blank identifier are dropped while the well-formed row `R1`
contributes a key. -/
theorem reader_silent_drop_witness :
    (["ResponseId", "Q1"] : List String).indexOf? surveyIdColumn = some 0 ∧
    ∃ q, read_qualtrics_csv ["ResponseId", "Q1"] [[], [" ", "x"], ["R1", "yes"]] =
        some q ∧
      q = ([[], [" ", "x"], ["R1", "yes"]].filter
        (fun row => decide (retainedRow 0 row))).foldl
        (qualtricsRowStep 0 ["ResponseId", "Q1"]) [] ∧
      ∀ row ∈ ([[], [" ", "x"], ["R1", "yes"]] : List (List String)),
        retainedRow 0 row → pyStrip (row.getD 0 "") ∈ keys q :=
  ⟨by decide,
    reader_silent_drop ["ResponseId", "Q1"] [[], [" ", "x"], ["R1", "yes"]] 0
      (by decide)⟩

section OrderingLemmas

/-- Auxiliary: no fixed priority column name bears the survey prefix. -/
theorem std_not_prefixed : ∀ k ∈ standard_log_keys,
    strStartsWith k nsPrefix = false := by decide

/-- Auxiliary: sorting with the string order is a function of the
multiset of inputs. -/
theorem insertionSort_eq_of_perm (l1 l2 : List String) (h : l1.Perm l2) :
    List.insertionSort (fun a b => a ≤ b) l1 =
      List.insertionSort (fun a b => a ≤ b) l2 := by
  haveI : IsTotal String (fun a b : String => a ≤ b) := ⟨fun a b => le_total a b⟩
  haveI : IsTrans String (fun a b : String => a ≤ b) :=
    ⟨fun a b c hab hbc => le_trans hab hbc⟩
  haveI : IsAntisymm String (fun a b : String => a ≤ b) :=
    ⟨fun a b hab hba => le_antisymm hab hba⟩
  exact List.eq_of_perm_of_sorted
    (((List.perm_insertionSort _ l1).trans h).trans
      (List.perm_insertionSort _ l2).symm)
    (List.sorted_insertionSort _ l1) (List.sorted_insertionSort _ l2)

/-- Auxiliary: the code's column ordering equals the spec's four-stage
description of it, for every key set. -/
theorem orderedKeys_eq_spec (all_keys : List String) :
    orderedKeys all_keys = orderedKeysSpec all_keys := by
  simp only [orderedKeys, orderedKeysSpec]
  have h2 : all_keys.filter
      (fun k => strStartsWith k nsPrefix &&
        !(decide (k ∈ standard_log_keys.filter (fun k => decide (k ∈ all_keys))))) =
      all_keys.filter (fun k => strStartsWith k nsPrefix) := by
    apply List.filter_congr
    intro k _
    cases hp : strStartsWith k nsPrefix with
    | false => rfl
    | true =>
        have hnot : k ∉ standard_log_keys.filter (fun k => decide (k ∈ all_keys)) := by
          intro hmem
          have hstd := std_not_prefixed k (List.mem_of_mem_filter hmem)
          rw [hp] at hstd
          cases hstd
        simp [hnot]
  rw [h2]
  have h3 : all_keys.filter
      (fun k => !(decide (k ∈ standard_log_keys.filter (fun k => decide (k ∈ all_keys)) ++
          List.insertionSort (fun a b => a ≤ b)
            (all_keys.filter (fun k => strStartsWith k nsPrefix)))) &&
        !(strStartsWith k "_")) =
      all_keys.filter
      (fun k => !(decide (k ∈ standard_log_keys.filter (fun k => decide (k ∈ all_keys)))) &&
        !(strStartsWith k nsPrefix) && !(strStartsWith k "_")) := by
    apply List.filter_congr
    intro k hk
    have hq : (k ∈ List.insertionSort (fun a b : String => a ≤ b)
        (all_keys.filter (fun k => strStartsWith k nsPrefix))) ↔
        strStartsWith k nsPrefix = true := by
      rw [(List.perm_insertionSort _ _).mem_iff, List.mem_filter]
      simp [hk]
    by_cases hs : k ∈ standard_log_keys.filter (fun k => decide (k ∈ all_keys))
    · simp [List.mem_append, hs]
    · cases hp : strStartsWith k nsPrefix with
      | false =>
          have hnq : k ∉ List.insertionSort (fun a b : String => a ≤ b)
              (all_keys.filter (fun k => strStartsWith k nsPrefix)) := by
            rw [hq, hp]
            simp
          simp [List.mem_append, hs, hnq, hp, hk]
      | true =>
          have hyq := hq.mpr hp
          simp [List.mem_append, hs, hyq, hp, hk]
  rw [h3]

/-- Auxiliary: the spec-stage ordering depends only on which keys are in
the union, not on their arrival order. -/
theorem orderedKeysSpec_perm_inv (a1 a2 : List String)
    (h1 : a1.Nodup) (h2 : a2.Nodup) (h : ∀ k, k ∈ a1 ↔ k ∈ a2) :
    orderedKeysSpec a1 = orderedKeysSpec a2 := by
  have hp : a1.Perm a2 := (List.perm_ext_iff_of_nodup h1 h2).mpr h
  simp only [orderedKeysSpec]
  have hs1 : standard_log_keys.filter (fun k => decide (k ∈ a1)) =
      standard_log_keys.filter (fun k => decide (k ∈ a2)) := by
    apply List.filter_congr
    intro k _
    exact decide_eq_decide.mpr (h k)
  rw [hs1, insertionSort_eq_of_perm _ _
      (hp.filter (fun k => strStartsWith k nsPrefix)),
    insertionSort_eq_of_perm _ _ (hp.filter
      (fun k => !(decide (k ∈ standard_log_keys.filter (fun k => decide (k ∈ a2)))) &&
        !(strStartsWith k nsPrefix) && !(strStartsWith k "_"))),
    insertionSort_eq_of_perm _ _ (hp.filter (fun k => strStartsWith k "_"))]

end OrderingLemmas

/-- C5: the output column order is a deterministic function of the union
of keys across all merged records, built in the spec's four stages — the
written header equals the four-stage `orderedKeysSpec` of the key union,
and any two merge results whose key unions have the same members get the
same column order. -/
theorem output_column_order :
    (∀ merged_data : List Record, merged_data ≠ [] →
      write_merged_csv merged_data =
        WriteOutcome.file (orderedKeysSpec (allKeys merged_data))
          (merged_data.map (fun r =>
            (orderedKeysSpec (allKeys merged_data)).map (fun k => getD r k "")))) ∧
    (∀ m1 m2 : List Record, (∀ k, k ∈ allKeys m1 ↔ k ∈ allKeys m2) →
      orderedKeys (allKeys m1) = orderedKeys (allKeys m2)) := by
  constructor
  · intro m hm
    simp only [write_merged_csv, if_neg hm, orderedKeys_eq_spec]
  · intro m1 m2 h
    rw [orderedKeys_eq_spec, orderedKeys_eq_spec]
    exact orderedKeysSpec_perm_inv _ _ (List.nodup_dedup _) (List.nodup_dedup _) h

/-- C5 witness: on a concrete singleton record the writer emits the
four-stage header, and the ordering is invariant under a same-membership
key union. -/
theorem output_column_order_witness :
    (([[(("userId" : String), ("u42" : String))]] : List Record) ≠ [] ∧
      write_merged_csv [[(("userId" : String), ("u42" : String))]] =
        WriteOutcome.file
          (orderedKeysSpec (allKeys [[(("userId" : String), ("u42" : String))]]))
          ([[(("userId" : String), ("u42" : String))]].map (fun r =>
            (orderedKeysSpec
              (allKeys [[(("userId" : String), ("u42" : String))]])).map
              (fun k => getD r k "")))) ∧
    ((∀ k, k ∈ allKeys [[(("a" : String), ("1" : String))]] ↔
        k ∈ allKeys [[(("a" : String), ("1" : String))]]) ∧
      orderedKeys (allKeys [[(("a" : String), ("1" : String))]]) =
        orderedKeys (allKeys [[(("a" : String), ("1" : String))]])) :=
  ⟨⟨by decide, output_column_order.1 _ (by decide)⟩,
    ⟨fun k => Iff.rfl, output_column_order.2 _ _ (fun k => Iff.rfl)⟩⟩

end MergeQualtrics
